/-
Verification of the DozedEnt text-rewriting scripts.

The repository contains two Python scripts that edit HTML files by literal
substring search and replace:

* `rewrite_script.py` splices the content of `new_script.js` over the span
  from the first occurrence of the literal tag `<script type="module">`
  through the end of the first `</script>` occurring at or after it
  (Python `str.index` / slice splice, lines 7-10).

* `tmp_modify.py` first inserts a fixed CSS block before the two-space
  indented literal `  </style>` when the marker substring `combat-controls`
  is absent (line 220-221, Python `str.replace`, which replaces every
  occurrence), then replaces the `old_block` game-info fragment by
  `new_markup` (lines 223-228), aborting with a fixed diagnostic when the
  fragment is absent (line 230); the file is written only afterwards
  (line 232).

Documents are modelled as `List Char`; `String.data` of Lean string
literals mirrors the Python literals character for character.  Python
`str.index`, the `in` containment test, and `str.replace` (for the
nonempty needles used here) are modelled by `findIndex`, `containsSub`
and `replaceAll` below.
-/
import Mathlib

namespace DozedEnt

set_option maxRecDepth 40000

/-- Python `needle in hay` substring test: some position of `hay` starts
with `needle`. -/
def containsSub (needle : List Char) : List Char → Bool
  | [] => needle.isEmpty
  | c :: rest => needle.isPrefixOf (c :: rest) || containsSub needle rest

/-- Python `hay.index(needle)` (without the exception): index of the first
position of `hay` at which `needle` occurs, if any. -/
def findIndex (needle : List Char) : List Char → Option Nat
  | [] => if needle.isEmpty then some 0 else none
  | c :: rest =>
    if needle.isPrefixOf (c :: rest) then some 0
    else (findIndex needle rest).map (· + 1)

/-- Python `hay.replace(needle, repl)` for the nonempty needles used by the
scripts: every leftmost non-overlapping occurrence of `needle` is replaced
by `repl`. -/
def replaceAll (needle repl : List Char) : List Char → List Char
  | [] => []
  | c :: rest =>
    if needle.isPrefixOf (c :: rest) then
      repl ++ replaceAll needle repl (rest.drop (needle.length - 1))
    else
      c :: replaceAll needle repl rest
termination_by hay => hay.length
decreasing_by
  all_goals simp [List.length_drop]
  omega

/-- No nonempty suffix of the second list is a prefix of `target`
(overlap-freeness oracle used by the replacement lemmas). -/
def noTailIsPrefixOf (target : List Char) : List Char → Bool
  | [] => true
  | c :: rest => !((c :: rest).isPrefixOf target) && noTailIsPrefixOf target rest

/-- Number of positions of `hay` at which `needle` occurs. -/
def countOccur (needle : List Char) : List Char → Nat
  | [] => 0
  | c :: rest =>
    (if needle.isPrefixOf (c :: rest) then 1 else 0) + countOccur needle rest

/-- The opening anchor of `rewrite_script.py` line 7. -/
def openTag : List Char := "<script type=\"module\">".data

/-- The closing anchor of `rewrite_script.py` line 8. -/
def closeTag : List Char := "</script>".data

/-- The splice of `rewrite_script.py` lines 7-9: locate the first opening
tag, the first closing tag at or after it, and replace that span by the
replacement script; `none` models the uncaught `ValueError` of `str.index`. -/
def scriptSplice (html_text script_text : List Char) : Option (List Char) :=
  match findIndex openTag html_text with
  | none => none
  | some start =>
    match findIndex closeTag (html_text.drop start) with
    | none => none
    | some i =>
      some (html_text.take start ++ script_text ++
        html_text.drop (start + i + closeTag.length))

/-- Stored content of the host file after a run of `rewrite_script.py`:
line 10 writes only when lines 7-9 did not raise. -/
def scriptSpliceFinal (html_text script_text : List Char) : List Char :=
  match scriptSplice html_text script_text with
  | some r => r
  | none => html_text

/-- The `old_block` literal of `tmp_modify.py` (line 223), with its escapes resolved. -/
def old_block : List Char := "      <div class=\"game-info\" data-game-info>\n        <span>Status: <strong data-game-status>Idle</strong></span>\n        <span>Position: <strong data-game-coords>0, 0</strong></span>\n        <button type=\"button\" class=\"game-info-button\" data-center-player>Center Player</button>\n      </div>\n    </section>".data

/-- Characters 0-799 of the CSS block `css_insert` of `tmp_modify.py` (lines 5-218). -/
def cssChunk1 : List Char := "\n    .combat-controls \x7b\n      margin-top: 20px;\n      display: flex;\n      flex-direction: column;\n      gap: 12px;\n    \x7d\n\n    .combat-controls .control-row \x7b\n      display: flex;\n      flex-wrap: wrap;\n      gap: 12px;\n      justify-content: center;\n    \x7d\n\n    .combat-button \x7b\n      flex: 1 1 140px;\n      min-width: 140px;\n      border: 1px solid rgba(148, 163, 184, 0.25);\n      background: linear-gradient(135deg, rgba(56, 189, 248, 0.1), rgba(30, 64, 175, 0.25));\n      color: #f8fafc;\n      padding: 12px 16px;\n      border-radius: 12px;\n      font-weight: 600;\n      letter-spacing: 0.02em;\n      display: flex;\n      flex-direction: column;\n      gap: 6px;\n      align-items: center;\n      transition: transform 0.18s ease, box-shadow 0.18s ease, border-color 0.18s ease;\n    \x7d\n\n    .combat-".data

/-- Characters 800-1599 of the CSS block `css_insert` of `tmp_modify.py` (lines 5-218). -/
def cssChunk2 : List Char := "button strong \x7b\n      font-size: 0.95rem;\n      letter-spacing: 0.04em;\n    \x7d\n\n    .combat-button span \x7b\n      font-size: 0.75rem;\n      letter-spacing: 0.08em;\n      text-transform: uppercase;\n      color: #94a3b8;\n    \x7d\n\n    .combat-button:focus-visible \x7b\n      outline: 2px solid rgba(56, 189, 248, 0.6);\n      outline-offset: 2px;\n    \x7d\n\n    .combat-button:hover \x7b\n      transform: translateY(-2px);\n      box-shadow: 0 12px 30px rgba(2, 6, 23, 0.45);\n    \x7d\n\n    .combat-button.is-active \x7b\n      border-color: rgba(96, 165, 250, 0.9);\n      background: linear-gradient(135deg, rgba(59, 130, 246, 0.55), rgba(79, 70, 229, 0.65));\n      box-shadow: 0 18px 40px rgba(37, 99, 235, 0.35);\n    \x7d\n\n    .combat-telemetry \x7b\n      margin-top: 28px;\n      display: grid;\n      gap: 18px;\n      grid-template".data

/-- Characters 1600-2399 of the CSS block `css_insert` of `tmp_modify.py` (lines 5-218). -/
def cssChunk3 : List Char := "-columns: repeat(auto-fit, minmax(240px, 1fr));\n    \x7d\n\n    .telemetry-card \x7b\n      padding: 20px;\n      border-radius: 16px;\n      background: rgba(15, 23, 42, 0.78);\n      border: 1px solid rgba(148, 163, 184, 0.18);\n      box-shadow: 0 12px 32px rgba(2, 6, 23, 0.45);\n      display: flex;\n      flex-direction: column;\n      gap: 12px;\n    \x7d\n\n    .telemetry-card h3 \x7b\n      margin: 0;\n      font-size: 1rem;\n      text-transform: uppercase;\n      letter-spacing: 0.08em;\n      color: #bfdbfe;\n    \x7d\n\n    .telemetry-list \x7b\n      margin: 0;\n      padding: 0;\n      list-style: none;\n      display: grid;\n      gap: 8px;\n    \x7d\n\n    .telemetry-row \x7b\n      display: flex;\n      justify-content: space-between;\n      gap: 12px;\n      font-size: 0.9rem;\n      color: #cbd5f5;\n    \x7d\n\n    .telemetry-label \x7b".data

/-- Characters 2400-3199 of the CSS block `css_insert` of `tmp_modify.py` (lines 5-218). -/
def cssChunk4 : List Char := "\n      text-transform: uppercase;\n      letter-spacing: 0.06em;\n      font-size: 0.75rem;\n      color: #94a3b8;\n    \x7d\n\n    .telemetry-value \x7b\n      font-variant-numeric: tabular-nums;\n      font-weight: 600;\n    \x7d\n\n    .telemetry-value.is-alert \x7b\n      color: #f87171;\n    \x7d\n\n    .telemetry-value.is-ready \x7b\n      color: #34d399;\n    \x7d\n\n    .status-effect-controls \x7b\n      margin-top: 24px;\n      padding: 20px;\n      border-radius: 16px;\n      background: rgba(15, 23, 42, 0.7);\n      border: 1px solid rgba(59, 130, 246, 0.2);\n      box-shadow: 0 12px 28px rgba(2, 6, 23, 0.4);\n      display: flex;\n      flex-direction: column;\n      gap: 16px;\n    \x7d\n\n    .status-effect-controls h3 \x7b\n      margin: 0;\n      font-size: 0.95rem;\n      letter-spacing: 0.06em;\n      text-transform: uppercase;\n      ".data

/-- Characters 3200-3999 of the CSS block `css_insert` of `tmp_modify.py` (lines 5-218). -/
def cssChunk5 : List Char := "color: #a5b4fc;\n    \x7d\n\n    .status-effect-controls p \x7b\n      margin: 0;\n      font-size: 0.85rem;\n      color: #94a3b8;\n    \x7d\n\n    .status-buttons \x7b\n      display: flex;\n      flex-wrap: wrap;\n      gap: 12px;\n    \x7d\n\n    .status-button \x7b\n      flex: 1 1 160px;\n      min-width: 140px;\n      border-radius: 10px;\n      border: 1px solid rgba(148, 163, 184, 0.25);\n      background: rgba(30, 64, 175, 0.2);\n      color: #e2e8f0;\n      padding: 10px 14px;\n      font-size: 0.85rem;\n      letter-spacing: 0.04em;\n      transition: transform 0.18s ease, box-shadow 0.18s ease, border-color 0.18s ease;\n    \x7d\n\n    .status-button:hover \x7b\n      transform: translateY(-1px);\n      box-shadow: 0 10px 24px rgba(2, 6, 23, 0.35);\n    \x7d\n\n    .status-button:focus-visible \x7b\n      outline: 2px solid rgba(129, 140, ".data

/-- Characters 4000-4762 of the CSS block `css_insert` of `tmp_modify.py` (lines 5-218). -/
def cssChunk6 : List Char := "248, 0.6);\n      outline-offset: 2px;\n    \x7d\n\n    .combat-badge \x7b\n      display: inline-flex;\n      align-items: center;\n      gap: 6px;\n      padding: 4px 10px;\n      border-radius: 999px;\n      background: rgba(59, 130, 246, 0.16);\n      color: #bfdbfe;\n      font-size: 0.75rem;\n      letter-spacing: 0.06em;\n      text-transform: uppercase;\n    \x7d\n\n    @media (max-width: 720px) \x7b\n      .combat-controls .control-row \x7b\n        justify-content: stretch;\n      \x7d\n\n      .combat-button \x7b\n        flex-basis: calc(50% - 12px);\n      \x7d\n\n      .status-button \x7b\n        flex-basis: calc(50% - 12px);\n      \x7d\n    \x7d\n\n    @media (max-width: 480px) \x7b\n      .combat-button \x7b\n        flex-basis: 100%;\n      \x7d\n\n      .status-button \x7b\n        flex-basis: 100%;\n      \x7d\n    \x7d\n".data

/-- The CSS block `css_insert` of `tmp_modify.py` (lines 5-218): the
concatenation of its chunks. -/
def css_insert : List Char := cssChunk1 ++ (cssChunk2 ++ (cssChunk3 ++ (cssChunk4 ++ (cssChunk5 ++ (cssChunk6)))))

/-- Characters 0-799 of the `new_markup` literal of `tmp_modify.py` (line 225). -/
def nmChunk1 : List Char := "      <div class=\"game-info\" data-game-info>\n        <span>Status: <strong data-game-status>Idle</strong></span>\n        <span>Position: <strong data-game-coords>0, 0</strong></span>\n        <button type=\"button\" class=\"game-info-button\" data-center-player>Center Player</button>\n      </div>\n      <div class=\"combat-controls\" data-combat-controls>\n        <div class=\"control-row\">\n          <button type=\"button\" class=\"combat-button\" data-combat-button=\"light\">\n            <strong>Light Attack</strong>\n            <span>J / 1</span>\n          </button>\n          <button type=\"button\" class=\"combat-button\" data-combat-button=\"heavy\">\n            <strong>Heavy Attack</strong>\n            <span>K / 2</span>\n          </button>\n          <button type=\"button\" class=\"combat-button\" data-combat-".data

/-- Characters 800-1599 of the `new_markup` literal of `tmp_modify.py` (line 225). -/
def nmChunk2 : List Char := "button=\"special\">\n            <strong>Special</strong>\n            <span>L / 5</span>\n          </button>\n        </div>\n        <div class=\"control-row\">\n          <button type=\"button\" class=\"combat-button\" data-combat-button=\"block\" data-holdable=\"true\">\n            <strong>Block / Parry</strong>\n            <span>Shift / 3</span>\n          </button>\n          <button type=\"button\" class=\"combat-button\" data-combat-button=\"roll\">\n            <strong>Roll</strong>\n            <span>Ctrl / 4</span>\n          </button>\n          <button type=\"button\" class=\"combat-button\" data-combat-button=\"parry\">\n            <strong>Parry Counter</strong>\n            <span>During Block</span>\n          </button>\n        </div>\n      </div>\n      <div class=\"combat-telemetry\" data-combat-telemetry>\n     ".data

/-- Characters 1600-2399 of the `new_markup` literal of `tmp_modify.py` (line 225). -/
def nmChunk3 : List Char := "   <article class=\"telemetry-card\">\n          <h3>Attack &amp; Flow</h3>\n          <ul class=\"telemetry-list\">\n            <li class=\"telemetry-row\"><span class=\"telemetry-label\">Attack State</span><span class=\"telemetry-value\" data-attack-state>Offline</span></li>\n            <li class=\"telemetry-row\"><span class=\"telemetry-label\">State Timer</span><span class=\"telemetry-value\" data-attack-timer>0.00s</span></li>\n            <li class=\"telemetry-row\"><span class=\"telemetry-label\">Combo Count</span><span class=\"telemetry-value\" data-combo-count>0</span></li>\n            <li class=\"telemetry-row\"><span class=\"telemetry-label\">Combo Window</span><span class=\"telemetry-value\" data-combo-window>—</span></li>\n            <li class=\"telemetry-row\"><span class=\"telemetry-label\">Counter Ready</spa".data

/-- Characters 2400-3199 of the `new_markup` literal of `tmp_modify.py` (line 225). -/
def nmChunk4 : List Char := "n><span class=\"telemetry-value\" data-counter-ready>No</span></li>\n            <li class=\"telemetry-row\"><span class=\"telemetry-label\">Counter Window</span><span class=\"telemetry-value\" data-counter-window>—</span></li>\n          </ul>\n        </article>\n        <article class=\"telemetry-card\">\n          <h3>Defense &amp; Mobility</h3>\n          <ul class=\"telemetry-list\">\n            <li class=\"telemetry-row\"><span class=\"telemetry-label\">Blocking</span><span class=\"telemetry-value\" data-block-state>No</span></li>\n            <li class=\"telemetry-row\"><span class=\"telemetry-label\">Hyperarmor</span><span class=\"telemetry-value\" data-hyperarmor>No</span></li>\n            <li class=\"telemetry-row\"><span class=\"telemetry-label\">Armor Value</span><span class=\"telemetry-value\" data-armor-value>0".data

/-- Characters 3200-3999 of the `new_markup` literal of `tmp_modify.py` (line 225). -/
def nmChunk5 : List Char := "</span></li>\n            <li class=\"telemetry-row\"><span class=\"telemetry-label\">Roll State</span><span class=\"telemetry-value\" data-roll-state>Idle</span></li>\n            <li class=\"telemetry-row\"><span class=\"telemetry-label\">Roll Timer</span><span class=\"telemetry-value\" data-roll-timer>0.00s</span></li>\n            <li class=\"telemetry-row\"><span class=\"telemetry-label\">Stunned</span><span class=\"telemetry-value\" data-stun-state>No</span></li>\n            <li class=\"telemetry-row\"><span class=\"telemetry-label\">Stun Remaining</span><span class=\"telemetry-value\" data-stun-remaining>0.00s</span></li>\n            <li class=\"telemetry-row\"><span class=\"telemetry-label\">Speed</span><span class=\"telemetry-value\" data-speed>0.00</span></li>\n          </ul>\n        </article>\n        <article ".data

/-- Characters 4000-4799 of the `new_markup` literal of `tmp_modify.py` (line 225). -/
def nmChunk6 : List Char := "class=\"telemetry-card\">\n          <h3>Status &amp; Environment</h3>\n          <ul class=\"telemetry-list\">\n            <li class=\"telemetry-row\"><span class=\"telemetry-label\">Active Effects</span><span class=\"telemetry-value\" data-status-count>0</span></li>\n            <li class=\"telemetry-row\"><span class=\"telemetry-label\">Move Modifier</span><span class=\"telemetry-value\" data-status-move>1.00×</span></li>\n            <li class=\"telemetry-row\"><span class=\"telemetry-label\">Damage Modifier</span><span class=\"telemetry-value\" data-status-damage>1.00×</span></li>\n            <li class=\"telemetry-row\"><span class=\"telemetry-label\">Defense Modifier</span><span class=\"telemetry-value\" data-status-defense>1.00×</span></li>\n            <li class=\"telemetry-row\"><span class=\"telemetry-label\">Near W".data

/-- Characters 4800-5599 of the `new_markup` literal of `tmp_modify.py` (line 225). -/
def nmChunk7 : List Char := "all</span><span class=\"telemetry-value\" data-wall-state>No</span></li>\n            <li class=\"telemetry-row\"><span class=\"telemetry-label\">Wall Distance</span><span class=\"telemetry-value\" data-wall-distance>—</span></li>\n            <li class=\"telemetry-row\"><span class=\"telemetry-label\">Near Ledge</span><span class=\"telemetry-value\" data-ledge-state>No</span></li>\n            <li class=\"telemetry-row\"><span class=\"telemetry-label\">Ledge Distance</span><span class=\"telemetry-value\" data-ledge-distance>—</span></li>\n          </ul>\n        </article>\n      </div>\n      <div class=\"status-effect-controls\">\n        <h3>Status Effect Sandbox</h3>\n        <p>Send quick status effect samples to the WASM combat layer and watch the telemetry respond. Everything uses the live exports outlined in G".data

/-- Characters 5600-6223 of the `new_markup` literal of `tmp_modify.py` (line 225). -/
def nmChunk8 : List Char := "UIDELINES/FIGHT.</p>\n        <div class=\"status-buttons\">\n          <button type=\"button\" class=\"status-button\" data-status-action=\"burning\">Apply Burning</button>\n          <button type=\"button\" class=\"status-button\" data-status-action=\"stun\">Apply Stun</button>\n          <button type=\"button\" class=\"status-button\" data-status-action=\"slow\">Apply Slow</button>\n          <button type=\"button\" class=\"status-button\" data-status-action=\"boost\">Apply Damage Boost</button>\n          <button type=\"button\" class=\"status-button\" data-status-action=\"clear\">Clear Demo Effects</button>\n        </div>\n      </div>\n    </section>".data

/-- The `new_markup` literal of `tmp_modify.py` (line 225): the
concatenation of its chunks. -/
def new_markup : List Char := nmChunk1 ++ (nmChunk2 ++ (nmChunk3 ++ (nmChunk4 ++ (nmChunk5 ++ (nmChunk6 ++ (nmChunk7 ++ (nmChunk8)))))))

/-- The guard substring of `tmp_modify.py` line 220. -/
def cssMarker : List Char := "combat-controls".data

/-- The replacement needle of `tmp_modify.py` line 221: the two-space
indented closing style tag. -/
def styleAnchor : List Char := "  </style>".data

/-- The text appended after the CSS block by `tmp_modify.py` line 221: a
blank line and the two-space indented closing style tag. -/
def styleTail : List Char := "\n\n  </style>".data

/-- The replacement text of `tmp_modify.py` line 221:
`css_insert + '\n\n  </style>'`. -/
def cssReplacement : List Char := css_insert ++ styleTail

/-- The style-injection step of `tmp_modify.py` lines 220-221. -/
def cssStep (text : List Char) : List Char :=
  if containsSub cssMarker text then text
  else replaceAll styleAnchor cssReplacement text

/-- The diagnostic of `tmp_modify.py` line 230. -/
def combatDiagnostic : String := "Could not locate combat insertion point"

/-- The fragment-replacement step of `tmp_modify.py` lines 227-230:
replace the game-info fragment, or fail with the fixed diagnostic. -/
def fragStep (text : List Char) : Except String (List Char) :=
  if containsSub old_block text then
    Except.ok (replaceAll old_block new_markup text)
  else
    Except.error combatDiagnostic

/-- The whole in-memory pipeline of `tmp_modify.py`: style injection then
fragment replacement. -/
def markupPatch (text : List Char) : Except String (List Char) :=
  fragStep (cssStep text)

/-- Stored content of `public/index.html` after a run of `tmp_modify.py`:
line 232 writes only when the pipeline did not abort. -/
def markupPatchFinal (text : List Char) : List Char :=
  match markupPatch text with
  | Except.ok r => r
  | Except.error _ => text

/-- Suffix of `cssReplacement` from chunk 6 on. -/
def cssTail6 : List Char := cssChunk6 ++ styleTail

/-- Suffix of `cssReplacement` from chunk 5 on. -/
def cssTail5 : List Char := cssChunk5 ++ cssTail6

/-- Suffix of `cssReplacement` from chunk 4 on. -/
def cssTail4 : List Char := cssChunk4 ++ cssTail5

/-- Suffix of `cssReplacement` from chunk 3 on. -/
def cssTail3 : List Char := cssChunk3 ++ cssTail4

/-- Suffix of `cssReplacement` from chunk 2 on. -/
def cssTail2 : List Char := cssChunk2 ++ cssTail3

/-- The list `cssReplacement` as a right-nested concatenation of its chunks. -/
def cssTail1 : List Char := cssChunk1 ++ cssTail2

/-- Suffix of `new_markup` from chunk 7 on. -/
def nmTail7 : List Char := nmChunk7 ++ nmChunk8

/-- Suffix of `new_markup` from chunk 6 on. -/
def nmTail6 : List Char := nmChunk6 ++ nmTail7

/-- Suffix of `new_markup` from chunk 5 on. -/
def nmTail5 : List Char := nmChunk5 ++ nmTail6

/-- Suffix of `new_markup` from chunk 4 on. -/
def nmTail4 : List Char := nmChunk4 ++ nmTail5

/-- Suffix of `new_markup` from chunk 3 on. -/
def nmTail3 : List Char := nmChunk3 ++ nmTail4

/-- Suffix of `new_markup` from chunk 2 on. -/
def nmTail2 : List Char := nmChunk2 ++ nmTail3

/-! ### Characterisations of the string primitives -/

/-- The test `containsSub` finds exactly the positions at which the needle is a
prefix of the remaining text. -/
theorem containsSub_iff {n h : List Char} :
    containsSub n h = true ↔ ∃ p, n <+: h.drop p := by
  induction h with
  | nil =>
    constructor
    · intro hh
      have hn : n = [] := by simpa [containsSub, List.isEmpty_iff] using hh
      exact ⟨0, by simp [hn]⟩
    · rintro ⟨p, hp⟩
      have hn : n = [] := by simpa using hp
      simp [containsSub, hn]
  | cons c rest ih =>
    simp only [containsSub, Bool.or_eq_true, List.isPrefixOf_iff_prefix, ih]
    constructor
    · rintro (h0 | ⟨p, hp⟩)
      · exact ⟨0, by simpa using h0⟩
      · exact ⟨p + 1, by simpa using hp⟩
    · rintro ⟨p, hp⟩
      match p with
      | 0 => exact Or.inl (by simpa using hp)
      | q + 1 => exact Or.inr ⟨q, by simpa using hp⟩

/-- Negative form of `containsSub_iff`. -/
theorem containsSub_eq_false_iff {n h : List Char} :
    containsSub n h = false ↔ ∀ p, ¬ n <+: h.drop p := by
  rw [← Bool.not_eq_true, containsSub_iff]
  push_neg
  rfl

/-- Unfolding equation of `replaceAll` on the empty document. -/
theorem replaceAll_nil (n r : List Char) : replaceAll n r [] = [] := by
  rw [replaceAll]

/-- Unfolding equation of `replaceAll` at a position where the needle
matches. -/
theorem replaceAll_cons_pos {n : List Char} (r : List Char) {c : Char}
    {t : List Char} (h : n.isPrefixOf (c :: t) = true) :
    replaceAll n r (c :: t) = r ++ replaceAll n r (t.drop (n.length - 1)) := by
  rw [replaceAll]
  simp [h]

/-- Unfolding equation of `replaceAll` at a position where the needle does
not match. -/
theorem replaceAll_cons_neg {n : List Char} (r : List Char) {c : Char}
    {t : List Char} (h : n.isPrefixOf (c :: t) = false) :
    replaceAll n r (c :: t) = c :: replaceAll n r t := by
  rw [replaceAll]
  simp [h]

/-- Dropping a positive count from a cons. -/
theorem cons_drop_pred {c : Char} {t : List Char} {m : Nat} (hm : 0 < m) :
    (c :: t).drop m = t.drop (m - 1) := by
  match m, hm with
  | k + 1, _ => simp

/-- The search `findIndex` returns exactly the first position at which the needle
occurs. -/
theorem findIndex_eq_some_iff {n h : List Char} {i : Nat} :
    findIndex n h = some i ↔
      (n <+: h.drop i ∧ ∀ p, p < i → ¬ n <+: h.drop p) := by
  induction h generalizing i with
  | nil =>
    by_cases hn : n = []
    · subst hn
      simp [findIndex]
      constructor
      · rintro rfl
        intro p
        omega
      · intro hmin
        have := hmin 0
        omega
    · simp [findIndex, List.isEmpty_iff, hn]
  | cons c rest ih =>
    by_cases hpre : n.isPrefixOf (c :: rest) = true
    · rw [ List.isPrefixOf_iff_prefix] at hpre
      simp only [findIndex, List.isPrefixOf_iff_prefix, if_pos hpre]
      constructor
      · intro hsome
        have : i = 0 := by simpa using hsome.symm
        subst this
        exact ⟨by simpa using hpre, by omega⟩
      · rintro ⟨-, hmin⟩
        have : i = 0 := by
          by_contra hne
          exact hmin 0 (by omega) (by simpa using hpre)
        simp [this]
    · have hpre' : ¬ n <+: (c :: rest) := by
        rw [← List.isPrefixOf_iff_prefix]
        simp [hpre]
      simp only [findIndex, if_neg hpre, Option.map_eq_some']
      constructor
      · rintro ⟨j, hj, rfl⟩
        obtain ⟨hocc, hmin⟩ := ih.mp hj
        refine ⟨by simpa using hocc, ?_⟩
        intro p hp
        match p with
        | 0 => simpa using hpre'
        | q + 1 =>
          have := hmin q (by omega)
          simpa using this
      · rintro ⟨hocc, hmin⟩
        match i with
        | 0 =>
          exact absurd (by simpa using hocc) hpre'
        | j + 1 =>
          refine ⟨j, ih.mpr ⟨by simpa using hocc, ?_⟩, rfl⟩
          intro p hp
          have := hmin (p + 1) (by omega)
          simpa using this

/-- The search `findIndex` fails exactly when the needle occurs nowhere. -/
theorem findIndex_eq_none_iff {n h : List Char} :
    findIndex n h = none ↔ ∀ p, ¬ n <+: h.drop p := by
  induction h with
  | nil =>
    by_cases hn : n = []
    · subst hn
      simp [findIndex]
    · simp [findIndex, List.isEmpty_iff, hn]
  | cons c rest ih =>
    by_cases hpre : n.isPrefixOf (c :: rest) = true
    · constructor
      · intro hnone
        simp [findIndex, hpre] at hnone
      · intro hall
        rw [ List.isPrefixOf_iff_prefix] at hpre
        exact absurd (by simpa using hpre) (hall 0)
    · have hpre' : ¬ n <+: (c :: rest) := fun hx => by
        rw [← List.isPrefixOf_iff_prefix] at hx
        simp [hx] at hpre
      simp only [findIndex, if_neg hpre, Option.map_eq_none', ih]
      constructor
      · intro hall p
        match p with
        | 0 => simpa using hpre'
        | q + 1 => simpa using hall q
      · intro hall q
        simpa using hall (q + 1)

/-- Specification of the overlap oracle: no nonempty suffix of `l` is a
prefix of `target`. -/
theorem noTailIsPrefixOf_spec {t l : List Char}
    (h : noTailIsPrefixOf t l = true) :
    ∀ k, k < l.length → ¬ (l.drop k) <+: t := by
  induction l with
  | nil => intro k hk; simp at hk
  | cons c rest ih =>
    simp only [noTailIsPrefixOf, Bool.and_eq_true, Bool.not_eq_true'] at h
    intro k hk
    match k with
    | 0 =>
      intro hx
      rw [List.drop_zero, ← List.isPrefixOf_iff_prefix] at hx
      simp [hx] at h
    | q + 1 =>
      have := ih h.2 q (by simpa using hk)
      simpa using this

/-- Occurrences survive extending the document on the left by one
character. -/
theorem containsSub_cons {P : List Char} {c : Char} {t : List Char}
    (h : containsSub P t = true) : containsSub P (c :: t) = true := by
  simp only [containsSub, Bool.or_eq_true]
  exact Or.inr h

/-- Occurrences inside a dropped suffix are occurrences. -/
theorem containsSub_of_drop {P h : List Char} {m : Nat}
    (hc : containsSub P (h.drop m) = true) : containsSub P h = true := by
  obtain ⟨p, hp⟩ := containsSub_iff.mp hc
  exact containsSub_iff.mpr ⟨m + p, by simpa [List.drop_drop] using hp⟩

/-- Occurrences in the right part of a concatenation are occurrences in the
whole. -/
theorem containsSub_append_right {P a b : List Char}
    (h : containsSub P b = true) : containsSub P (a ++ b) = true := by
  induction a with
  | nil => simpa using h
  | cons c rest ih => exact containsSub_cons ih

/-- Occurrences in the left part of a concatenation are occurrences in the
whole. -/
theorem containsSub_append_left {P a b : List Char}
    (h : containsSub P a = true) : containsSub P (a ++ b) = true := by
  obtain ⟨p, hp⟩ := containsSub_iff.mp h
  refine containsSub_iff.mpr ⟨p, ?_⟩
  rcases le_or_lt p a.length with hpa | hpa
  · rw [List.drop_append_of_le_length hpa]
    exact hp.trans (List.prefix_append _ _)
  · have : a.drop p = [] := List.drop_of_length_le (by omega)
    rw [this] at hp
    have : P = [] := by simpa using hp
    simp [this]

/-- A prefix of a concatenation only sees the first `P.length - 1`
characters of the right part, as long as the left part is nonempty. -/
theorem prefix_append_take {P x b : List Char} (hx : x ≠ []) :
    P <+: x ++ b ↔ P <+: x ++ b.take (P.length - 1) := by
  have hx1 : 1 ≤ x.length := by
    cases x with
    | nil => exact absurd rfl hx
    | cons c t => simp
  have hmin : min (P.length - x.length) (P.length - 1) = P.length - x.length := by
    omega
  constructor
  · intro hp
    rw [List.prefix_iff_eq_take] at hp
    rw [List.take_append_eq_append_take] at hp
    rw [List.prefix_iff_eq_take, List.take_append_eq_append_take,
      List.take_take, hmin]
    exact hp
  · intro hp
    rw [List.prefix_iff_eq_take, List.take_append_eq_append_take,
      List.take_take, hmin] at hp
    rw [List.prefix_iff_eq_take, List.take_append_eq_append_take]
    exact hp

/-- Where a prefix of a dropped concatenation can live: wholly in the left
part, wholly in the right part, or crossing the border, in which case the
rest of the left part is one of its prefixes. -/
theorem prefix_drop_append_cases {P a b : List Char} {p : Nat}
    (h : P <+: (a ++ b).drop p) :
    (p + P.length ≤ a.length ∧ P <+: a.drop p) ∨
    (a.length ≤ p ∧ P <+: b.drop (p - a.length)) ∨
    (p < a.length ∧ a.length < p + P.length ∧ (a.drop p) <+: P) := by
  rcases le_or_lt a.length p with hpa | hpa
  · refine Or.inr (Or.inl ⟨hpa, ?_⟩)
    rwa [List.drop_append_eq_append_drop,
      List.drop_of_length_le hpa, List.nil_append] at h
  · rw [List.drop_append_eq_append_drop,
      Nat.sub_eq_zero_of_le (Nat.le_of_lt hpa), List.drop_zero] at h
    rcases le_or_lt (p + P.length) a.length with hlen | hlen
    · refine Or.inl ⟨hlen, ?_⟩
      rw [List.prefix_iff_eq_take, List.take_append_eq_append_take] at h
      have hP : P.length ≤ (a.drop p).length := by
        simp only [List.length_drop]
        omega
      rw [Nat.sub_eq_zero_of_le hP, List.take_zero, List.append_nil] at h
      rw [List.prefix_iff_eq_take]
      exact h
    · refine Or.inr (Or.inr ⟨hpa, hlen, ?_⟩)
      refine List.prefix_of_prefix_length_le (List.prefix_append _ _) h ?_
      simp only [List.length_drop]
      omega

/-- The rewrite `replaceAll` is the identity on documents without an occurrence of the
needle. -/
theorem replaceAll_of_not_contains {n r h : List Char}
    (hc : containsSub n h = false) : replaceAll n r h = h := by
  induction h with
  | nil => exact replaceAll_nil n r
  | cons c rest ih =>
    simp only [containsSub, Bool.or_eq_false_iff] at hc
    rw [replaceAll_cons_neg r hc.1, ih hc.2]

/-- A prefix of a concatenation that fits in the left part is a prefix of
the left part. -/
theorem prefix_of_prefix_append_length {l a b : List Char}
    (h : l <+: a ++ b) (hl : l.length ≤ a.length) : l <+: a := by
  rw [List.prefix_iff_eq_take, List.take_append_eq_append_take,
    Nat.sub_eq_zero_of_le hl, List.take_zero, List.append_nil] at h
  rw [List.prefix_iff_eq_take]
  exact h

/-- Pattern suffixes matching into a replacement result match into the
original document, provided no nonempty suffix of `P` is a prefix of the
replacement text and `P` is no longer than it. -/
theorem prefix_drop_replaceAll {n r P : List Char}
    (hlen : P.length ≤ r.length)
    (hnt : ∀ k, k < P.length → ¬ (P.drop k) <+: r) :
    ∀ h k, (P.drop k) <+: replaceAll n r h → (P.drop k) <+: h := by
  intro h
  induction h using replaceAll.induct n r with
  | case1 =>
    intro k hk
    rwa [replaceAll_nil] at hk
  | case2 c t hpre ih =>
    intro k hk
    rcases le_or_lt P.length k with hkP | hkP
    · rw [List.drop_of_length_le hkP]
      exact List.nil_prefix
    · rw [replaceAll_cons_pos r hpre] at hk
      have : (P.drop k) <+: r := by
        refine prefix_of_prefix_append_length hk ?_
        simp only [List.length_drop]
        omega
      exact absurd this (hnt k hkP)
  | case3 c t hpre ih =>
    intro k hk
    rcases le_or_lt P.length k with hkP | hkP
    · rw [List.drop_of_length_le hkP]
      exact List.nil_prefix
    · have hpre' : n.isPrefixOf (c :: t) = false := Bool.eq_false_iff.mpr hpre
      rw [replaceAll_cons_neg r hpre'] at hk
      rw [List.drop_eq_getElem_cons hkP] at hk ⊢
      rw [List.cons_prefix_cons] at hk ⊢
      exact ⟨hk.1, ih (k + 1) hk.2⟩

/-- Occurrence reflection: a pattern that occurs nowhere in the replacement
text and cannot straddle its borders occurs in `replaceAll n r h` only if
it occurs in `h`. -/
theorem contains_replaceAll_reflect {n r P : List Char}
    (hlen : P.length ≤ r.length)
    (hPr : containsSub P r = false)
    (hcross : ∀ j, j < r.length → ¬ (r.drop j) <+: P)
    (hnt : ∀ k, k < P.length → ¬ (P.drop k) <+: r) :
    ∀ h, containsSub P (replaceAll n r h) = true → containsSub P h = true := by
  intro h
  induction h using replaceAll.induct n r with
  | case1 =>
    intro hc
    rwa [replaceAll_nil] at hc
  | case2 c t hpre ih =>
    intro hc
    rw [replaceAll_cons_pos r hpre] at hc
    obtain ⟨p, hp⟩ := containsSub_iff.mp hc
    rcases prefix_drop_append_cases hp with ⟨hin, hpr⟩ | ⟨hge, hpr⟩ | ⟨h1, h2, hpr⟩
    · exact absurd (containsSub_iff.mpr ⟨p, hpr⟩) (by simp [hPr])
    · have := ih (containsSub_iff.mpr ⟨p - r.length, hpr⟩)
      exact containsSub_cons (containsSub_of_drop this)
    · exact absurd hpr (hcross p h1)
  | case3 c t hpre ih =>
    intro hc
    have hpre' : n.isPrefixOf (c :: t) = false := Bool.eq_false_iff.mpr hpre
    rw [replaceAll_cons_neg r hpre'] at hc
    simp only [containsSub, Bool.or_eq_true] at hc ⊢
    rcases hc with hc | hc
    · rw [ List.isPrefixOf_iff_prefix] at hc
      have : P <+: (c :: t) := by
        have := prefix_drop_replaceAll (n := n) hlen hnt (c :: t) 0
        rw [List.drop_zero] at this
        exact this (by rwa [replaceAll_cons_neg r hpre'])
      exact Or.inl (by rwa [ List.isPrefixOf_iff_prefix])
    · exact Or.inr (ih hc)

/-- Occurrence elimination: after `replaceAll n r`, the needle `n` itself
no longer occurs, provided it occurs nowhere in `r` and cannot straddle the
borders of `r`. -/
theorem not_contains_self_replaceAll {n r : List Char}
    (hn : n ≠ [])
    (hlen : n.length ≤ r.length)
    (hnr : containsSub n r = false)
    (hcross : ∀ j, j < r.length → ¬ (r.drop j) <+: n)
    (hnt : ∀ k, k < n.length → ¬ (n.drop k) <+: r) :
    ∀ h, containsSub n (replaceAll n r h) = false := by
  intro h
  induction h using replaceAll.induct n r with
  | case1 =>
    rw [replaceAll_nil]
    simpa [containsSub, List.isEmpty_iff] using hn
  | case2 c t hpre ih =>
    rw [replaceAll_cons_pos r hpre]
    by_contra hcon
    rw [Bool.not_eq_false] at hcon
    obtain ⟨p, hp⟩ := containsSub_iff.mp hcon
    rcases prefix_drop_append_cases hp with ⟨hin, hpr⟩ | ⟨hge, hpr⟩ | ⟨h1, h2, hpr⟩
    · exact absurd (containsSub_iff.mpr ⟨p, hpr⟩) (by simp [hnr])
    · exact absurd (containsSub_iff.mpr ⟨p - r.length, hpr⟩) (by simp [ih])
    · exact absurd hpr (hcross p h1)
  | case3 c t hpre ih =>
    have hpre' : n.isPrefixOf (c :: t) = false := Bool.eq_false_iff.mpr hpre
    rw [replaceAll_cons_neg r hpre']
    simp only [containsSub, Bool.or_eq_false_iff]
    refine ⟨?_, ih⟩
    by_contra hcon
    rw [Bool.not_eq_false, List.isPrefixOf_iff_prefix] at hcon
    have : n <+: (c :: t) := by
      have := prefix_drop_replaceAll (n := n) hlen hnt (c :: t) 0
      rw [List.drop_zero] at this
      exact this (by rwa [replaceAll_cons_neg r hpre'])
    rw [← List.isPrefixOf_iff_prefix] at this
    simp [this] at hpre'

/-- Pattern suffixes matching into the original document still match into
the replacement result, provided the needle occurs nowhere in `P` and no
nonempty suffix of `P` is a prefix of the needle. -/
theorem prefix_replaceAll_preserve {n r P : List Char}
    (hnP : containsSub n P = false)
    (hsufP : ∀ k, k < P.length → ¬ (P.drop k) <+: n) :
    ∀ h k, (P.drop k) <+: h → (P.drop k) <+: replaceAll n r h := by
  intro h
  induction h using replaceAll.induct n r with
  | case1 =>
    intro k hk
    rwa [replaceAll_nil]
  | case2 c t hpre ih =>
    intro k hk
    rcases le_or_lt P.length k with hkP | hkP
    · rw [List.drop_of_length_le hkP]
      exact List.nil_prefix
    · exfalso
      rw [ List.isPrefixOf_iff_prefix] at hpre
      rcases le_or_lt (P.drop k).length n.length with hcmp | hcmp
      · exact hsufP k hkP (List.prefix_of_prefix_length_le hk hpre hcmp)
      · have hnk : n <+: P.drop k :=
          List.prefix_of_prefix_length_le hpre hk (Nat.le_of_lt hcmp)
        exact absurd (containsSub_iff.mpr ⟨k, hnk⟩) (by simp [hnP])
  | case3 c t hpre ih =>
    intro k hk
    have hpre' : n.isPrefixOf (c :: t) = false := Bool.eq_false_iff.mpr hpre
    rcases le_or_lt P.length k with hkP | hkP
    · rw [List.drop_of_length_le hkP]
      exact List.nil_prefix
    · rw [replaceAll_cons_neg r hpre']
      rw [List.drop_eq_getElem_cons hkP] at hk ⊢
      rw [List.cons_prefix_cons] at hk ⊢
      exact ⟨hk.1, ih (k + 1) hk.2⟩

/-- Occurrence preservation: a pattern in which the needle occurs nowhere
and which cannot straddle needle occurrences survives `replaceAll`. -/
theorem contains_replaceAll_preserve {n r P : List Char}
    (hn : n ≠ [])
    (hlen : n.length ≤ P.length)
    (hnP : containsSub n P = false)
    (hsufP : ∀ k, k < P.length → ¬ (P.drop k) <+: n)
    (hnsuf : ∀ j, j < n.length → ¬ (n.drop j) <+: P) :
    ∀ h, containsSub P h = true → containsSub P (replaceAll n r h) = true := by
  intro h
  induction h using replaceAll.induct n r with
  | case1 =>
    intro hc
    rwa [replaceAll_nil]
  | case2 c t hpre ih =>
    intro hc
    rw [replaceAll_cons_pos r hpre]
    obtain ⟨p, hp⟩ := containsSub_iff.mp hc
    have hn0 : 0 < n.length := List.length_pos.mpr hn
    rcases le_or_lt n.length p with hnp | hnp
    · have hp' : P <+: ((c :: t).drop n.length).drop (p - n.length) := by
        rw [List.drop_drop]
        have : n.length + (p - n.length) = p := by omega
        rwa [this]
      rw [cons_drop_pred hn0] at hp'
      have := ih (containsSub_iff.mpr ⟨p - n.length, hp'⟩)
      exact containsSub_append_right this
    · exfalso
      rw [ List.isPrefixOf_iff_prefix] at hpre
      have hdropped : (n.drop p) <+: ((c :: t).drop p) := hpre.drop p
      have hlendrop : (n.drop p).length ≤ P.length := by
        simp only [List.length_drop]
        omega
      exact hnsuf p hnp (List.prefix_of_prefix_length_le hdropped hp hlendrop)
  | case3 c t hpre ih =>
    intro hc
    have hpre' : n.isPrefixOf (c :: t) = false := Bool.eq_false_iff.mpr hpre
    rw [replaceAll_cons_neg r hpre']
    simp only [containsSub, Bool.or_eq_true] at hc ⊢
    rcases hc with hc | hc
    · rw [ List.isPrefixOf_iff_prefix] at hc
      have := prefix_replaceAll_preserve (n := n) (r := r) hnP hsufP (c :: t) 0
      rw [List.drop_zero] at this
      have := this hc
      rw [replaceAll_cons_neg r hpre'] at this
      exact Or.inl (by rwa [ List.isPrefixOf_iff_prefix])
    · exact Or.inr (ih hc)

/-- Whenever the needle occurs, the replacement result contains everything
the replacement text contains. -/
theorem contains_repl_replaceAll {n r X : List Char}
    (hn : n ≠ [])
    (hXr : containsSub X r = true) :
    ∀ h, containsSub n h = true → containsSub X (replaceAll n r h) = true := by
  intro h
  induction h using replaceAll.induct n r with
  | case1 =>
    intro hc
    simp [containsSub, List.isEmpty_iff, hn] at hc
  | case2 c t hpre ih =>
    intro hc
    rw [replaceAll_cons_pos r hpre]
    exact containsSub_append_left hXr
  | case3 c t hpre ih =>
    intro hc
    have hpre' : n.isPrefixOf (c :: t) = false := Bool.eq_false_iff.mpr hpre
    rw [replaceAll_cons_neg r hpre']
    simp only [containsSub, Bool.or_eq_true] at hc
    rcases hc with hc | hc
    · rw [hc] at hpre'
      cases hpre'
    · exact containsSub_cons (ih hc)

/-- Splice form of `replaceAll`: the replacement happens first at the first
occurrence, then recursively after it. -/
theorem replaceAll_splice {n r : List Char} (hn : n ≠ []) :
    ∀ {h : List Char} {i : Nat}, findIndex n h = some i →
      replaceAll n r h =
        h.take i ++ r ++ replaceAll n r (h.drop (i + n.length)) := by
  intro h
  induction h with
  | nil =>
    intro i hf
    rw [findIndex, if_neg (by simpa [List.isEmpty_iff] using hn)] at hf
    cases hf
  | cons c t ih =>
    intro i hf
    have hn0 : 0 < n.length := List.length_pos.mpr hn
    by_cases hpre : n.isPrefixOf (c :: t) = true
    · rw [findIndex, if_pos hpre] at hf
      have hi : i = 0 := by simpa using hf.symm
      subst hi
      rw [replaceAll_cons_pos r hpre, List.take_zero, List.nil_append,
        Nat.zero_add, cons_drop_pred hn0]
    · rw [findIndex, if_neg hpre, Option.map_eq_some'] at hf
      obtain ⟨j, hj, rfl⟩ := hf
      have hpre' : n.isPrefixOf (c :: t) = false := Bool.eq_false_iff.mpr hpre
      rw [replaceAll_cons_neg r hpre', ih hj]
      have hdrop : (c :: t).drop (j + 1 + n.length) = t.drop (j + n.length) := by
        rw [cons_drop_pred (by omega)]
        congr 1
        omega
      rw [hdrop]
      simp [List.take_cons]

/-- Splitting a containment search at a chunk border: an occurrence in
`a ++ b` lies in `a` extended by the first `P.length - 1` characters of
`b`, or in `b`. -/
theorem contains_append_split {P a b : List Char}
    (h : containsSub P (a ++ b) = true) :
    containsSub P (a ++ b.take (P.length - 1)) = true ∨
      containsSub P b = true := by
  obtain ⟨p, hp⟩ := containsSub_iff.mp h
  rcases le_or_lt a.length p with hpa | hpa
  · rw [List.drop_append_eq_append_drop, List.drop_of_length_le hpa,
      List.nil_append] at hp
    exact Or.inr (containsSub_iff.mpr ⟨p - a.length, hp⟩)
  · rw [List.drop_append_eq_append_drop,
      Nat.sub_eq_zero_of_le (Nat.le_of_lt hpa), List.drop_zero] at hp
    have hne : a.drop p ≠ [] := by
      intro hx
      have := congrArg List.length hx
      simp only [List.length_drop] at this
      simp at this
      omega
    rw [prefix_append_take hne] at hp
    refine Or.inl (containsSub_iff.mpr ⟨p, ?_⟩)
    rwa [List.drop_append_eq_append_drop,
      Nat.sub_eq_zero_of_le (Nat.le_of_lt hpa), List.drop_zero]

/-- Chunked refutation of containment. -/
theorem contains_append_chunk_false {P a b : List Char}
    (h1 : containsSub P (a ++ b.take (P.length - 1)) = false)
    (h2 : containsSub P b = false) :
    containsSub P (a ++ b) = false := by
  by_contra hcon
  rw [Bool.not_eq_false] at hcon
  rcases contains_append_split hcon with hx | hx
  · rw [hx] at h1; cases h1
  · rw [hx] at h2; cases h2

/-- Extending the overlap oracle over a left chunk: when the right part is
at least as long as the target, suffixes passing through the left part are
too long to be prefixes. -/
theorem noTail_extend {t a b : List Char} (hlen : t.length ≤ b.length)
    (hb : noTailIsPrefixOf t b = true) :
    noTailIsPrefixOf t (a ++ b) = true := by
  induction a with
  | nil => simpa using hb
  | cons c a' ih =>
    simp only [List.cons_append, noTailIsPrefixOf, Bool.and_eq_true,
      Bool.not_eq_true']
    refine ⟨?_, ih⟩
    by_contra hcon
    rw [Bool.not_eq_false, List.isPrefixOf_iff_prefix] at hcon
    have hle := hcon.length_le
    simp only [List.length_cons, List.length_append, List.append_eq] at hle
    omega

/-- Exact chunked counting: occurrences of `P` in `a ++ b` split into
those seen by `a` extended with the first `P.length - 1` characters of `b`
and those lying in `b`. -/
theorem countOccur_append_take {P : List Char} :
    ∀ a b : List Char,
      countOccur P (a ++ b) + countOccur P (b.take (P.length - 1)) =
        countOccur P (a ++ b.take (P.length - 1)) + countOccur P b := by
  intro a
  induction a with
  | nil =>
    intro b
    rw [List.nil_append, List.nil_append]
    omega
  | cons c a' ih =>
    intro b
    have hne : (c :: a') ≠ ([] : List Char) := by simp
    have hhead : P.isPrefixOf (c :: (a' ++ b)) =
        P.isPrefixOf (c :: (a' ++ b.take (P.length - 1))) := by
      rw [← List.cons_append, ← List.cons_append]
      rcases hx : P.isPrefixOf ((c :: a') ++ b) with hfalse | htrue
      · rcases hy : P.isPrefixOf ((c :: a') ++ b.take (P.length - 1)) with h2 | h2
        · rfl
        · rw [ List.isPrefixOf_iff_prefix] at hy
          rw [← prefix_append_take hne] at hy
          rw [← List.isPrefixOf_iff_prefix] at hy
          rw [hy] at hx
          cases hx
      · rw [ List.isPrefixOf_iff_prefix] at hx
        rw [prefix_append_take hne] at hx
        rw [← List.isPrefixOf_iff_prefix] at hx
        rw [hx]
    rw [List.cons_append, List.cons_append]
    simp only [countOccur]
    rw [hhead]
    have := ih b
    omega


/-! ### Concrete facts about the literals -/

/-- The game-info fragment is nonempty. -/
theorem old_block_ne : old_block ≠ [] := by decide

/-- The style anchor is nonempty. -/
theorem styleAnchor_ne : styleAnchor ≠ [] := by decide

/-- Length of the game-info fragment. -/
theorem old_block_len : old_block.length = 307 := by decide

/-- Length of the style anchor. -/
theorem styleAnchor_len : styleAnchor.length = 10 := by decide

/-- Length of the appended closing-tag text. -/
theorem styleTail_len : styleTail.length = 12 := by decide
/-- Length of `cssChunk1`. -/
theorem cssChunk1_len : cssChunk1.length = 800 := by decide

/-- Length of `cssChunk2`. -/
theorem cssChunk2_len : cssChunk2.length = 800 := by decide

/-- Length of `cssChunk3`. -/
theorem cssChunk3_len : cssChunk3.length = 800 := by decide

/-- Length of `cssChunk4`. -/
theorem cssChunk4_len : cssChunk4.length = 800 := by decide

/-- Length of `cssChunk5`. -/
theorem cssChunk5_len : cssChunk5.length = 800 := by decide

/-- Length of `cssChunk6`. -/
theorem cssChunk6_len : cssChunk6.length = 763 := by decide

/-- Length of `nmChunk1`. -/
theorem nmChunk1_len : nmChunk1.length = 800 := by decide

/-- Length of `nmChunk2`. -/
theorem nmChunk2_len : nmChunk2.length = 800 := by decide

/-- Length of `nmChunk3`. -/
theorem nmChunk3_len : nmChunk3.length = 800 := by decide

/-- Length of `nmChunk4`. -/
theorem nmChunk4_len : nmChunk4.length = 800 := by decide

/-- Length of `nmChunk5`. -/
theorem nmChunk5_len : nmChunk5.length = 800 := by decide

/-- Length of `nmChunk6`. -/
theorem nmChunk6_len : nmChunk6.length = 800 := by decide

/-- Length of `nmChunk7`. -/
theorem nmChunk7_len : nmChunk7.length = 800 := by decide

/-- Length of `nmChunk8`. -/
theorem nmChunk8_len : nmChunk8.length = 624 := by decide

/-- Length of `cssTail6`. -/
theorem cssTail6_len : cssTail6.length = 775 := by
  unfold cssTail6
  rw [List.length_append, cssChunk6_len, styleTail_len]

/-- Length of `cssTail5`. -/
theorem cssTail5_len : cssTail5.length = 1575 := by
  unfold cssTail5
  rw [List.length_append, cssChunk5_len, cssTail6_len]

/-- Length of `cssTail4`. -/
theorem cssTail4_len : cssTail4.length = 2375 := by
  unfold cssTail4
  rw [List.length_append, cssChunk4_len, cssTail5_len]

/-- Length of `cssTail3`. -/
theorem cssTail3_len : cssTail3.length = 3175 := by
  unfold cssTail3
  rw [List.length_append, cssChunk3_len, cssTail4_len]

/-- Length of `cssTail2`. -/
theorem cssTail2_len : cssTail2.length = 3975 := by
  unfold cssTail2
  rw [List.length_append, cssChunk2_len, cssTail3_len]

/-- Length of `cssTail1`. -/
theorem cssTail1_len : cssTail1.length = 4775 := by
  unfold cssTail1
  rw [List.length_append, cssChunk1_len, cssTail2_len]

/-- Length of `nmTail7`. -/
theorem nmTail7_len : nmTail7.length = 1424 := by
  unfold nmTail7
  rw [List.length_append, nmChunk7_len, nmChunk8_len]

/-- Length of `nmTail6`. -/
theorem nmTail6_len : nmTail6.length = 2224 := by
  unfold nmTail6
  rw [List.length_append, nmChunk6_len, nmTail7_len]

/-- Length of `nmTail5`. -/
theorem nmTail5_len : nmTail5.length = 3024 := by
  unfold nmTail5
  rw [List.length_append, nmChunk5_len, nmTail6_len]

/-- Length of `nmTail4`. -/
theorem nmTail4_len : nmTail4.length = 3824 := by
  unfold nmTail4
  rw [List.length_append, nmChunk4_len, nmTail5_len]

/-- Length of `nmTail3`. -/
theorem nmTail3_len : nmTail3.length = 4624 := by
  unfold nmTail3
  rw [List.length_append, nmChunk3_len, nmTail4_len]

/-- Length of `nmTail2`. -/
theorem nmTail2_len : nmTail2.length = 5424 := by
  unfold nmTail2
  rw [List.length_append, nmChunk2_len, nmTail3_len]

/-- The list `cssReplacement` re-associated into its chunk spine. -/
theorem cssReplacement_eq_tail1 : cssReplacement = cssTail1 := by
  unfold cssReplacement css_insert cssTail1 cssTail2 cssTail3 cssTail4 cssTail5 cssTail6
  simp [List.append_assoc]

/-- The list `new_markup` written with its tail segments. -/
theorem new_markup_eq_spine : new_markup = nmChunk1 ++ nmTail2 := by
  unfold new_markup nmTail2 nmTail3 nmTail4 nmTail5 nmTail6 nmTail7
  rfl

/-- Length of `new_markup`. -/
theorem new_markup_len : new_markup.length = 6224 := by
  rw [new_markup_eq_spine, List.length_append, nmChunk1_len, nmTail2_len]

/-- Length of `cssReplacement`. -/
theorem cssReplacement_len : cssReplacement.length = 4775 := by
  rw [cssReplacement_eq_tail1, cssTail1_len]

/-- The game-info fragment does not occur in the last CSS segment. -/
theorem ob_notin_cssTail6 : containsSub old_block cssTail6 = false := by
  unfold cssTail6 cssChunk6 styleTail old_block
  decide

/-- The game-info fragment does not occur in `cssTail5`. -/
theorem ob_notin_cssTail5 : containsSub old_block cssTail5 = false := by
  unfold cssTail5
  exact contains_append_chunk_false (by decide) ob_notin_cssTail6

/-- The game-info fragment does not occur in `cssTail4`. -/
theorem ob_notin_cssTail4 : containsSub old_block cssTail4 = false := by
  unfold cssTail4
  exact contains_append_chunk_false (by decide) ob_notin_cssTail5

/-- The game-info fragment does not occur in `cssTail3`. -/
theorem ob_notin_cssTail3 : containsSub old_block cssTail3 = false := by
  unfold cssTail3
  exact contains_append_chunk_false (by decide) ob_notin_cssTail4

/-- The game-info fragment does not occur in `cssTail2`. -/
theorem ob_notin_cssTail2 : containsSub old_block cssTail2 = false := by
  unfold cssTail2
  exact contains_append_chunk_false (by decide) ob_notin_cssTail3

/-- The game-info fragment does not occur in `cssTail1`. -/
theorem ob_notin_cssTail1 : containsSub old_block cssTail1 = false := by
  unfold cssTail1
  exact contains_append_chunk_false (by decide) ob_notin_cssTail2

/-- The game-info fragment does not occur in the CSS replacement text. -/
theorem ob_notin_cssReplacement : containsSub old_block cssReplacement = false := by
  rw [cssReplacement_eq_tail1]
  exact ob_notin_cssTail1

/-- The game-info fragment does not occur in the last chunk of the new
markup. -/
theorem ob_notin_nmChunk8 : containsSub old_block nmChunk8 = false := by decide

/-- The game-info fragment does not occur in `nmTail7`. -/
theorem ob_notin_nmTail7 : containsSub old_block nmTail7 = false := by
  unfold nmTail7
  exact contains_append_chunk_false (by decide) ob_notin_nmChunk8

/-- The game-info fragment does not occur in `nmTail6`. -/
theorem ob_notin_nmTail6 : containsSub old_block nmTail6 = false := by
  unfold nmTail6
  exact contains_append_chunk_false (by decide) ob_notin_nmTail7

/-- The game-info fragment does not occur in `nmTail5`. -/
theorem ob_notin_nmTail5 : containsSub old_block nmTail5 = false := by
  unfold nmTail5
  exact contains_append_chunk_false (by decide) ob_notin_nmTail6

/-- The game-info fragment does not occur in `nmTail4`. -/
theorem ob_notin_nmTail4 : containsSub old_block nmTail4 = false := by
  unfold nmTail4
  exact contains_append_chunk_false (by decide) ob_notin_nmTail5

/-- The game-info fragment does not occur in `nmTail3`. -/
theorem ob_notin_nmTail3 : containsSub old_block nmTail3 = false := by
  unfold nmTail3
  exact contains_append_chunk_false (by decide) ob_notin_nmTail4

/-- The game-info fragment does not occur in `nmTail2`. -/
theorem ob_notin_nmTail2 : containsSub old_block nmTail2 = false := by
  unfold nmTail2
  exact contains_append_chunk_false (by decide) ob_notin_nmTail3

/-- The game-info fragment does not occur in the new markup. -/
theorem ob_notin_nm : containsSub old_block new_markup = false := by
  rw [new_markup_eq_spine]
  exact contains_append_chunk_false (by decide) ob_notin_nmTail2



/-- No nonempty suffix of the last CSS segment is a prefix of the
game-info fragment. -/
theorem noTail_ob_cssTail6 : noTailIsPrefixOf old_block cssTail6 = true := by
  unfold cssTail6 cssChunk6 styleTail old_block
  decide

/-- No nonempty suffix of `cssTail5` is a prefix of the game-info fragment. -/
theorem noTail_ob_cssTail5 : noTailIsPrefixOf old_block cssTail5 = true := by
  unfold cssTail5
  exact noTail_extend (by rw [old_block_len, cssTail6_len]; omega) noTail_ob_cssTail6

/-- No nonempty suffix of `cssTail4` is a prefix of the game-info fragment. -/
theorem noTail_ob_cssTail4 : noTailIsPrefixOf old_block cssTail4 = true := by
  unfold cssTail4
  exact noTail_extend (by rw [old_block_len, cssTail5_len]; omega) noTail_ob_cssTail5

/-- No nonempty suffix of `cssTail3` is a prefix of the game-info fragment. -/
theorem noTail_ob_cssTail3 : noTailIsPrefixOf old_block cssTail3 = true := by
  unfold cssTail3
  exact noTail_extend (by rw [old_block_len, cssTail4_len]; omega) noTail_ob_cssTail4

/-- No nonempty suffix of `cssTail2` is a prefix of the game-info fragment. -/
theorem noTail_ob_cssTail2 : noTailIsPrefixOf old_block cssTail2 = true := by
  unfold cssTail2
  exact noTail_extend (by rw [old_block_len, cssTail3_len]; omega) noTail_ob_cssTail3

/-- No nonempty suffix of `cssTail1` is a prefix of the game-info fragment. -/
theorem noTail_ob_cssTail1 : noTailIsPrefixOf old_block cssTail1 = true := by
  unfold cssTail1
  exact noTail_extend (by rw [old_block_len, cssTail2_len]; omega) noTail_ob_cssTail2

/-- No nonempty suffix of the CSS replacement text is a prefix of the
game-info fragment. -/
theorem noTail_ob_cssReplacement :
    noTailIsPrefixOf old_block cssReplacement = true := by
  rw [cssReplacement_eq_tail1]
  exact noTail_ob_cssTail1

/-- No nonempty suffix of the game-info fragment is a prefix of the CSS
replacement text. -/
theorem noTail_cssReplacement_ob :
    noTailIsPrefixOf cssReplacement old_block = true := by decide

/-- No nonempty suffix of the last chunk of the new markup is a prefix of
the game-info fragment. -/
theorem noTail_ob_nmChunk8 : noTailIsPrefixOf old_block nmChunk8 = true := by
  decide

/-- No nonempty suffix of `nmTail7` is a prefix of the game-info fragment. -/
theorem noTail_ob_nmTail7 : noTailIsPrefixOf old_block nmTail7 = true := by
  unfold nmTail7
  exact noTail_extend (by rw [old_block_len, nmChunk8_len]; omega) noTail_ob_nmChunk8

/-- No nonempty suffix of `nmTail6` is a prefix of the game-info fragment. -/
theorem noTail_ob_nmTail6 : noTailIsPrefixOf old_block nmTail6 = true := by
  unfold nmTail6
  exact noTail_extend (by rw [old_block_len, nmTail7_len]; omega) noTail_ob_nmTail7

/-- No nonempty suffix of `nmTail5` is a prefix of the game-info fragment. -/
theorem noTail_ob_nmTail5 : noTailIsPrefixOf old_block nmTail5 = true := by
  unfold nmTail5
  exact noTail_extend (by rw [old_block_len, nmTail6_len]; omega) noTail_ob_nmTail6

/-- No nonempty suffix of `nmTail4` is a prefix of the game-info fragment. -/
theorem noTail_ob_nmTail4 : noTailIsPrefixOf old_block nmTail4 = true := by
  unfold nmTail4
  exact noTail_extend (by rw [old_block_len, nmTail5_len]; omega) noTail_ob_nmTail5

/-- No nonempty suffix of `nmTail3` is a prefix of the game-info fragment. -/
theorem noTail_ob_nmTail3 : noTailIsPrefixOf old_block nmTail3 = true := by
  unfold nmTail3
  exact noTail_extend (by rw [old_block_len, nmTail4_len]; omega) noTail_ob_nmTail4

/-- No nonempty suffix of `nmTail2` is a prefix of the game-info fragment. -/
theorem noTail_ob_nmTail2 : noTailIsPrefixOf old_block nmTail2 = true := by
  unfold nmTail2
  exact noTail_extend (by rw [old_block_len, nmTail3_len]; omega) noTail_ob_nmTail3

/-- No nonempty suffix of the new markup is a prefix of the game-info
fragment. -/
theorem noTail_ob_nm : noTailIsPrefixOf old_block new_markup = true := by
  rw [new_markup_eq_spine]
  exact noTail_extend (by rw [old_block_len, nmTail2_len]; omega) noTail_ob_nmTail2

/-- No nonempty suffix of the game-info fragment is a prefix of the new
markup. -/
theorem noTail_nm_ob : noTailIsPrefixOf new_markup old_block = true := by
  decide

/-- No nonempty proper suffix of the game-info fragment is a prefix of the
fragment itself (the fragment cannot overlap itself). -/
theorem noTail_ob_self : noTailIsPrefixOf old_block (old_block.drop 1) = true := by
  decide

/-- The marker does not occur in the game-info fragment. -/
theorem marker_notin_ob : containsSub cssMarker old_block = false := by decide

/-- The style anchor does not occur in the game-info fragment. -/
theorem anchor_notin_ob : containsSub styleAnchor old_block = false := by decide

/-- No nonempty suffix of the style anchor is a prefix of the game-info
fragment. -/
theorem noTail_ob_anchor : noTailIsPrefixOf old_block styleAnchor = true := by
  decide

/-- No nonempty suffix of the game-info fragment is a prefix of the style
anchor. -/
theorem noTail_anchor_ob : noTailIsPrefixOf styleAnchor old_block = true := by
  decide

/-- The marker occurs in the first CSS chunk. -/
theorem marker_in_cssChunk1 : containsSub cssMarker cssChunk1 = true := by
  decide

/-- The marker occurs in the CSS replacement text. -/
theorem marker_in_cssReplacement :
    containsSub cssMarker cssReplacement = true := by
  rw [cssReplacement_eq_tail1]
  unfold cssTail1
  exact containsSub_append_left marker_in_cssChunk1

/-- The marker occurs in the first chunk of the new markup. -/
theorem marker_in_nmChunk1 : containsSub cssMarker nmChunk1 = true := by
  decide

/-- The marker occurs in the new markup. -/
theorem marker_in_nm : containsSub cssMarker new_markup = true := by
  rw [new_markup_eq_spine]
  exact containsSub_append_left marker_in_nmChunk1

/-- The CSS block is a prefix of the CSS replacement text, hence occurs in
it. -/
theorem css_insert_in_cssReplacement :
    containsSub css_insert cssReplacement = true := by
  refine containsSub_iff.mpr ⟨0, ?_⟩
  rw [List.drop_zero]
  unfold cssReplacement
  exact List.prefix_append _ _

/-- The marker occurrence count of the last CSS segment. -/
theorem count_marker_cssTail6 : countOccur cssMarker cssTail6 = 1 := by
  unfold cssTail6 cssChunk6 styleTail cssMarker
  decide

/-- The marker occurrence count of `cssTail5`. -/
theorem count_marker_cssTail5 : countOccur cssMarker cssTail5 = 1 := by
  have h := countOccur_append_take (P := cssMarker) cssChunk5 cssTail6
  have h1 : countOccur cssMarker (cssTail6.take (cssMarker.length - 1)) = 0 := by
    decide
  have h2 :
      countOccur cssMarker (cssChunk5 ++ cssTail6.take (cssMarker.length - 1)) = 0 := by
    decide
  have h3 := count_marker_cssTail6
  unfold cssTail5
  omega

/-- The marker occurrence count of `cssTail4`. -/
theorem count_marker_cssTail4 : countOccur cssMarker cssTail4 = 1 := by
  have h := countOccur_append_take (P := cssMarker) cssChunk4 cssTail5
  have h1 : countOccur cssMarker (cssTail5.take (cssMarker.length - 1)) = 0 := by
    decide
  have h2 :
      countOccur cssMarker (cssChunk4 ++ cssTail5.take (cssMarker.length - 1)) = 0 := by
    decide
  have h3 := count_marker_cssTail5
  unfold cssTail4
  omega

/-- The marker occurrence count of `cssTail3`. -/
theorem count_marker_cssTail3 : countOccur cssMarker cssTail3 = 1 := by
  have h := countOccur_append_take (P := cssMarker) cssChunk3 cssTail4
  have h1 : countOccur cssMarker (cssTail4.take (cssMarker.length - 1)) = 0 := by
    decide
  have h2 :
      countOccur cssMarker (cssChunk3 ++ cssTail4.take (cssMarker.length - 1)) = 0 := by
    decide
  have h3 := count_marker_cssTail4
  unfold cssTail3
  omega

/-- The marker occurrence count of `cssTail2`. -/
theorem count_marker_cssTail2 : countOccur cssMarker cssTail2 = 1 := by
  have h := countOccur_append_take (P := cssMarker) cssChunk2 cssTail3
  have h1 : countOccur cssMarker (cssTail3.take (cssMarker.length - 1)) = 0 := by
    decide
  have h2 :
      countOccur cssMarker (cssChunk2 ++ cssTail3.take (cssMarker.length - 1)) = 0 := by
    decide
  have h3 := count_marker_cssTail3
  unfold cssTail2
  omega

/-- The marker occurrence count of `cssTail1`. -/
theorem count_marker_cssTail1 : countOccur cssMarker cssTail1 = 3 := by
  have h := countOccur_append_take (P := cssMarker) cssChunk1 cssTail2
  have h1 : countOccur cssMarker (cssTail2.take (cssMarker.length - 1)) = 0 := by
    decide
  have h2 :
      countOccur cssMarker (cssChunk1 ++ cssTail2.take (cssMarker.length - 1)) = 2 := by
    decide
  have h3 := count_marker_cssTail2
  unfold cssTail1
  omega

/-- The marker occurs exactly three times in the CSS replacement text. -/
theorem count_marker_cssReplacement :
    countOccur cssMarker cssReplacement = 3 := by
  rw [cssReplacement_eq_tail1]
  exact count_marker_cssTail1


/-! ### Derived behaviour of the pipeline steps -/

/-- With the marker present, the style step does nothing. -/
theorem cssStep_of_marker {t : List Char}
    (hm : containsSub cssMarker t = true) : cssStep t = t := by
  simp [cssStep, hm]

/-- With the marker absent, the style step is the anchor replacement. -/
theorem cssStep_of_insert {t : List Char}
    (hm : containsSub cssMarker t = false) :
    cssStep t = replaceAll styleAnchor cssReplacement t := by
  simp [cssStep, hm]

/-- Without the two-space indented anchor, the style step does nothing. -/
theorem cssStep_of_no_anchor {t : List Char}
    (ha : containsSub styleAnchor t = false) : cssStep t = t := by
  by_cases hm : containsSub cssMarker t = true
  · exact cssStep_of_marker hm
  · rw [cssStep_of_insert (Bool.eq_false_iff.mpr hm)]
    exact replaceAll_of_not_contains ha

/-- The style step cannot create an occurrence of the game-info
fragment. -/
theorem cssStep_reflect_ob {t : List Char}
    (h : containsSub old_block (cssStep t) = true) :
    containsSub old_block t = true := by
  by_cases hm : containsSub cssMarker t = true
  · rwa [cssStep_of_marker hm] at h
  · rw [cssStep_of_insert (Bool.eq_false_iff.mpr hm)] at h
    refine contains_replaceAll_reflect ?_ ob_notin_cssReplacement ?_ ?_ t h
    · rw [old_block_len, cssReplacement_len]
      omega
    · exact noTailIsPrefixOf_spec noTail_ob_cssReplacement
    · exact noTailIsPrefixOf_spec noTail_cssReplacement_ob

/-- The style step cannot destroy an occurrence of the game-info
fragment. -/
theorem cssStep_preserve_ob {t : List Char}
    (h : containsSub old_block t = true) :
    containsSub old_block (cssStep t) = true := by
  by_cases hm : containsSub cssMarker t = true
  · rwa [cssStep_of_marker hm]
  · rw [cssStep_of_insert (Bool.eq_false_iff.mpr hm)]
    refine contains_replaceAll_preserve styleAnchor_ne ?_ anchor_notin_ob
      (noTailIsPrefixOf_spec noTail_anchor_ob)
      (noTailIsPrefixOf_spec noTail_ob_anchor) t h
    rw [styleAnchor_len, old_block_len]
    omega

/-- When the style step does insert, the marker is present afterwards. -/
theorem cssStep_marker_of_anchor {t : List Char}
    (hm : containsSub cssMarker t = false)
    (ha : containsSub styleAnchor t = true) :
    containsSub cssMarker (cssStep t) = true := by
  rw [cssStep_of_insert hm]
  exact contains_repl_replaceAll styleAnchor_ne marker_in_cssReplacement t ha

/-- The fragment replacement removes every occurrence of the game-info
fragment. -/
theorem ob_gone_after_replace (s : List Char) :
    containsSub old_block (replaceAll old_block new_markup s) = false := by
  refine not_contains_self_replaceAll old_block_ne ?_ ob_notin_nm
    (noTailIsPrefixOf_spec noTail_ob_nm)
    (noTailIsPrefixOf_spec noTail_nm_ob) s
  rw [old_block_len, new_markup_len]
  omega

/-- The fragment replacement leaves the marker in the document. -/
theorem marker_after_replace {s : List Char}
    (h : containsSub old_block s = true) :
    containsSub cssMarker (replaceAll old_block new_markup s) = true :=
  contains_repl_replaceAll old_block_ne marker_in_nm s h

/-! ### Claim theorems -/

/-- C1.  Script-Splice correctness: for every host document in which the
first occurrence of the opening tag starts at `s` and the first
`</script>` at or after `s` starts at `q`, and every replacement text, the
spliced output is the text before `s`, the replacement verbatim, and the
text after the end of that closing tag. -/
theorem C1_script_splice (html script : List Char) (s q : Nat)
    (h1 : openTag <+: html.drop s)
    (h2 : ∀ p, p < s → ¬ openTag <+: html.drop p)
    (h3 : closeTag <+: html.drop q)
    (h4 : s ≤ q)
    (h5 : ∀ p, p < q → s ≤ p → ¬ closeTag <+: html.drop p) :
    scriptSplice html script =
      some (html.take s ++ script ++ html.drop (q + closeTag.length)) := by
  have hf1 : findIndex openTag html = some s :=
    findIndex_eq_some_iff.mpr ⟨h1, h2⟩
  have hf2 : findIndex closeTag (html.drop s) = some (q - s) := by
    refine findIndex_eq_some_iff.mpr ⟨?_, ?_⟩
    · rw [List.drop_drop]
      have hq : s + (q - s) = q := by omega
      rwa [hq]
    · intro p hp
      rw [List.drop_drop]
      exact h5 (s + p) (by omega) (by omega)
  have harith : s + (q - s) + closeTag.length = q + closeTag.length := by
    omega
  simp only [scriptSplice, hf1, hf2, harith]

/-- Witness for C1 on a five-character host around one module script
span. -/
theorem C1_witness :
    scriptSplice "A<script type=\"module\">X</script>B".data "JS".data =
      some ("A<script type=\"module\">X</script>B".data.take 1 ++ "JS".data ++
        "A<script type=\"module\">X</script>B".data.drop
          (24 + closeTag.length)) :=
  C1_script_splice _ _ 1 24 (by decide) (by decide) (by decide) (by decide)
    (by decide)

/-- C6.  Script-Splice on a host without the opening marker fails (the
unguarded lookup raises) and the stored host text is unchanged. -/
theorem C6_missing_open (html script : List Char)
    (h : containsSub openTag html = false) :
    scriptSplice html script = none ∧ scriptSpliceFinal html script = html := by
  have hf : findIndex openTag html = none :=
    findIndex_eq_none_iff.mpr (containsSub_eq_false_iff.mp h)
  refine ⟨?_, ?_⟩
  · simp only [scriptSplice, hf]
  · simp only [scriptSpliceFinal, scriptSplice, hf]

/-- Witness for C6 on the host `hello`. -/
theorem C6_witness :
    scriptSplice "hello".data "JS".data = none ∧
      scriptSpliceFinal "hello".data "JS".data = "hello".data :=
  C6_missing_open _ _ (by decide)

/-- C8.  Script-Splice on a host that has the opening tag but no
`</script>` at or after it fails before the write and the stored host text
is unchanged. -/
theorem C8_missing_close (html script : List Char) (s : Nat)
    (h1 : openTag <+: html.drop s)
    (h2 : ∀ p, p < s → ¬ openTag <+: html.drop p)
    (h3 : ∀ p, ¬ closeTag <+: (html.drop s).drop p) :
    scriptSplice html script = none ∧ scriptSpliceFinal html script = html := by
  have hf1 : findIndex openTag html = some s :=
    findIndex_eq_some_iff.mpr ⟨h1, h2⟩
  have hf2 : findIndex closeTag (html.drop s) = none :=
    findIndex_eq_none_iff.mpr h3
  refine ⟨?_, ?_⟩
  · simp only [scriptSplice, hf1, hf2]
  · simp only [scriptSpliceFinal, scriptSplice, hf1, hf2]

/-- Witness for C8: a host whose only `</script>` precedes the opening
tag. -/
theorem C8_witness :
    scriptSplice "</script><script type=\"module\">x".data "JS".data = none ∧
      scriptSpliceFinal "</script><script type=\"module\">x".data "JS".data =
        "</script><script type=\"module\">x".data :=
  C8_missing_close _ _ 9 (by decide) (by decide)
    (containsSub_eq_false_iff.mp (by decide))

/-- C2 (counterexample).  On the spec scenario input
`<style>\nbody{}\n</style>` with the marker absent, the style step leaves
the document unchanged and the CSS block does not appear: the code's
needle is the two-space indented `  </style>`, which this input lacks. -/
theorem C2_counterexample :
    containsSub cssMarker "<style>\nbody\x7b\x7d\n</style>".data = false ∧
    cssStep "<style>\nbody\x7b\x7d\n</style>".data =
      "<style>\nbody\x7b\x7d\n</style>".data ∧
    containsSub css_insert
      (cssStep "<style>\nbody\x7b\x7d\n</style>".data) = false := by
  have h2 : cssStep "<style>\nbody\x7b\x7d\n</style>".data =
      "<style>\nbody\x7b\x7d\n</style>".data :=
    cssStep_of_no_anchor (by decide)
  refine ⟨by decide, h2, ?_⟩
  rw [h2]
  decide

/-- C2 (amended).  With the marker absent, the style step rewrites the
document by replacing every occurrence of the two-space indented literal
`  </style>` with the CSS block followed by a blank line and the anchor;
in particular the CSS replacement text lands at the first anchor
occurrence.  With the anchor absent the document passes through
unchanged (so the spec scenario input is returned as is), and with the
marker already present the document is left unchanged even when the
anchor is present. -/
theorem C2_style_injection :
    (∀ (t : List Char) (i : Nat), containsSub cssMarker t = false →
      findIndex styleAnchor t = some i →
      cssStep t = t.take i ++ cssReplacement ++
        replaceAll styleAnchor cssReplacement
          (t.drop (i + styleAnchor.length))) ∧
    (∀ t : List Char, containsSub styleAnchor t = false → cssStep t = t) ∧
    (∀ t : List Char, containsSub cssMarker t = true → cssStep t = t) := by
  refine ⟨?_, ?_, ?_⟩
  · intro t i hm hf
    rw [cssStep_of_insert hm]
    exact replaceAll_splice styleAnchor_ne hf
  · intro t ha
    exact cssStep_of_no_anchor ha
  · intro t hm
    exact cssStep_of_marker hm

/-- Witness for C2: the anchor at position 1 of `x  </style>y` receives
the insertion, the unindented scenario document is unchanged, and a
document already carrying the marker is unchanged although it contains
the anchor. -/
theorem C2_witness :
    cssStep "x  </style>y".data =
      "x  </style>y".data.take 1 ++ cssReplacement ++
        replaceAll styleAnchor cssReplacement
          ("x  </style>y".data.drop (1 + styleAnchor.length)) ∧
    cssStep "<style>\nbody\x7b\x7d\n</style>".data =
      "<style>\nbody\x7b\x7d\n</style>".data ∧
    cssStep "combat-controls  </style>".data =
      "combat-controls  </style>".data :=
  ⟨C2_style_injection.1 _ 1 (by decide) (by decide),
    C2_style_injection.2.1 _ (by decide),
    C2_style_injection.2.2 _ (by decide)⟩

/-- C3 (counterexample).  Running the style step on the document that is
exactly the anchor `  </style>` inserts the CSS block, whose marker count
is three, not one: the marker class name does not appear exactly once in
the result. -/
theorem C3_counterexample :
    countOccur cssMarker (cssStep styleAnchor) = 3 ∧
    countOccur cssMarker (cssStep styleAnchor) ≠ 1 := by
  have h1 : cssStep styleAnchor = cssReplacement := by
    have hf : findIndex styleAnchor styleAnchor = some 0 := by decide
    rw [cssStep_of_insert (by decide), replaceAll_splice styleAnchor_ne hf]
    have hd : styleAnchor.drop (0 + styleAnchor.length) = [] := by decide
    rw [hd, replaceAll_nil, List.take_zero, List.nil_append, List.append_nil]
  rw [h1, count_marker_cssReplacement]
  omega

/-- C3 (amended).  The style step is idempotent: a second application
changes nothing, and in particular the marker count of the result is the
same however often the step is repeated (though it need not be one). -/
theorem C3_idempotent : ∀ t : List Char,
    cssStep (cssStep t) = cssStep t ∧
    countOccur cssMarker (cssStep (cssStep t)) =
      countOccur cssMarker (cssStep t) := by
  intro t
  have hmain : cssStep (cssStep t) = cssStep t := by
    by_cases hm : containsSub cssMarker t = true
    · rw [cssStep_of_marker hm, cssStep_of_marker hm]
    · have hm' := Bool.eq_false_iff.mpr hm
      by_cases ha : containsSub styleAnchor t = true
      · exact cssStep_of_marker (cssStep_marker_of_anchor hm' ha)
      · have ha' := Bool.eq_false_iff.mpr ha
        rw [cssStep_of_no_anchor ha', cssStep_of_no_anchor ha']
  exact ⟨hmain, by rw [hmain]⟩

/-- C4.  Abort atomicity: on any document without the game-info fragment
(the style step cannot create one), the pipeline stops with the fixed
diagnostic and the stored file content is unchanged. -/
theorem C4_abort_atomic : ∀ t : List Char,
    containsSub old_block t = false →
    markupPatch t = Except.error combatDiagnostic ∧
      markupPatchFinal t = t := by
  intro t h
  have hstep : containsSub old_block (cssStep t) = false := by
    by_contra hc
    rw [Bool.not_eq_false] at hc
    rw [cssStep_reflect_ob hc] at h
    cases h
  have hpatch : markupPatch t = Except.error combatDiagnostic := by
    unfold markupPatch fragStep
    simp [hstep]
  refine ⟨hpatch, ?_⟩
  unfold markupPatchFinal
  rw [hpatch]

/-- Witness for C4 on the document `hello`. -/
theorem C4_witness :
    markupPatch "hello".data = Except.error combatDiagnostic ∧
      markupPatchFinal "hello".data = "hello".data :=
  C4_abort_atomic _ (by decide)

/-- C5.  Fragment replacement is not idempotent: a successful run on a
document containing the game-info fragment produces output without the
fragment, and running the pipeline again on that output fails with the
fixed diagnostic. -/
theorem C5_not_idempotent : ∀ t : List Char,
    containsSub old_block t = true →
    markupPatch t =
      Except.ok (replaceAll old_block new_markup (cssStep t)) ∧
    containsSub old_block
      (replaceAll old_block new_markup (cssStep t)) = false ∧
    markupPatch (replaceAll old_block new_markup (cssStep t)) =
      Except.error combatDiagnostic := by
  intro t h
  have h1 : containsSub old_block (cssStep t) = true := cssStep_preserve_ob h
  have hfirst : markupPatch t =
      Except.ok (replaceAll old_block new_markup (cssStep t)) := by
    unfold markupPatch fragStep
    simp [h1]
  have hgone := ob_gone_after_replace (cssStep t)
  have hmark : containsSub cssMarker
      (replaceAll old_block new_markup (cssStep t)) = true :=
    marker_after_replace h1
  have hsecond : markupPatch (replaceAll old_block new_markup (cssStep t)) =
      Except.error combatDiagnostic := by
    unfold markupPatch
    rw [cssStep_of_marker hmark]
    unfold fragStep
    simp [hgone]
  exact ⟨hfirst, hgone, hsecond⟩

/-- Witness for C5 on the document that is exactly the game-info
fragment. -/
theorem C5_witness :
    markupPatch old_block =
      Except.ok (replaceAll old_block new_markup (cssStep old_block)) ∧
    containsSub old_block
      (replaceAll old_block new_markup (cssStep old_block)) = false ∧
    markupPatch (replaceAll old_block new_markup (cssStep old_block)) =
      Except.error combatDiagnostic :=
  C5_not_idempotent old_block (by decide)

/-- First-occurrence computation behind C7: with the fragment absent from
`pre`, the first occurrence of the fragment in `pre ++ (old_block ++ suf)`
is exactly at `pre.length` (the fragment cannot overlap itself). -/
theorem findIndex_ob_seam (pre suf : List Char)
    (hpre : containsSub old_block pre = false) :
    findIndex old_block (pre ++ (old_block ++ suf)) = some pre.length := by
  refine findIndex_eq_some_iff.mpr ⟨?_, ?_⟩
  · rw [List.drop_left]
    exact List.prefix_append _ _
  · intro p hp hocc
    rcases prefix_drop_append_cases hocc with ⟨hin, hpr⟩ | ⟨hge, hpr⟩ |
      ⟨hlt, hgt, hpr⟩
    · exact absurd (containsSub_iff.mpr ⟨p, hpr⟩) (by simp [hpre])
    · omega
    · have hdrop := hocc.drop (pre.length - p)
      rw [List.drop_drop] at hdrop
      have hpq : p + (pre.length - p) = pre.length := by omega
      rw [hpq, List.drop_left] at hdrop
      have hfit : (old_block.drop (pre.length - p)).length ≤
          old_block.length := by
        simp only [List.length_drop]
        omega
      have hself : (old_block.drop (pre.length - p)) <+: old_block :=
        prefix_of_prefix_append_length hdrop hfit
      have hspec := noTailIsPrefixOf_spec noTail_ob_self
        (pre.length - p - 1)
        (by simp only [List.length_drop]; omega)
      rw [List.drop_drop] at hspec
      have hone : 1 + (pre.length - p - 1) = pre.length - p := by omega
      rw [hone] at hspec
      exact hspec hself

/-- C7 (counterexample).  On the document made of two adjacent copies of
the game-info fragment, the replacement step rewrites both copies: the
output is two copies of the new markup, not one copy followed by the
untouched fragment, so the text around the first occurrence is not
byte-identical to the input. -/
theorem C7_counterexample :
    fragStep (old_block ++ old_block) =
      Except.ok (new_markup ++ new_markup) ∧
    new_markup ++ new_markup ≠ new_markup ++ old_block := by
  have hfi0 : findIndex old_block old_block = some 0 := by
    refine findIndex_eq_some_iff.mpr ⟨?_, ?_⟩
    · rw [List.drop_zero]
    · intro p hp
      exact absurd hp (by omega)
  have hinner : replaceAll old_block new_markup old_block = new_markup := by
    rw [replaceAll_splice (r := new_markup) old_block_ne hfi0]
    rw [Nat.zero_add, List.drop_length, replaceAll_nil, List.take_zero,
      List.nil_append, List.append_nil]
  have hfi : findIndex old_block (old_block ++ old_block) = some 0 := by
    refine findIndex_eq_some_iff.mpr ⟨?_, ?_⟩
    · rw [List.drop_zero]
      exact List.prefix_append _ _
    · intro p hp
      exact absurd hp (by omega)
  have houter : replaceAll old_block new_markup (old_block ++ old_block) =
      new_markup ++ new_markup := by
    rw [replaceAll_splice (r := new_markup) old_block_ne hfi]
    rw [Nat.zero_add, List.drop_left, hinner, List.take_zero,
      List.nil_append]
  have hob : containsSub old_block (old_block ++ old_block) = true :=
    containsSub_iff.mpr ⟨0, by
      rw [List.drop_zero]
      exact List.prefix_append _ _⟩
  constructor
  · unfold fragStep
    simp only [hob, if_true]
    rw [houter]
  · intro heq
    have hnm : new_markup = old_block := List.append_cancel_left heq
    have hlen := congrArg List.length hnm
    rw [new_markup_len, old_block_len] at hlen
    cases hlen

/-- C7 (amended).  Fragment replacement correctness: on a document with a
single occurrence of the game-info fragment (fragment absent from the
prefix and the suffix), the step succeeds and the output is the prefix,
the new markup, and the suffix, with the surrounding text byte-identical;
in general every occurrence is replaced, not only the first. -/
theorem C7_fragment_replace (pre suf : List Char)
    (hpre : containsSub old_block pre = false)
    (hsuf : containsSub old_block suf = false) :
    fragStep (pre ++ (old_block ++ suf)) =
      Except.ok (pre ++ (new_markup ++ suf)) := by
  have hc : containsSub old_block (pre ++ (old_block ++ suf)) = true :=
    containsSub_append_right (containsSub_iff.mpr ⟨0, by
      rw [List.drop_zero]
      exact List.prefix_append _ _⟩)
  have hfi := findIndex_ob_seam pre suf hpre
  have hsplice := replaceAll_splice (r := new_markup) old_block_ne hfi
  rw [List.take_left] at hsplice
  have hdrop : (pre ++ (old_block ++ suf)).drop
      (pre.length + old_block.length) = suf := by
    rw [List.drop_append]
    exact List.drop_left _ _
  rw [hdrop, replaceAll_of_not_contains hsuf] at hsplice
  unfold fragStep
  simp only [hc, if_true]
  rw [hsplice, List.append_assoc]

/-- Witness for C7 on a document with one fragment between two single
characters. -/
theorem C7_witness :
    fragStep ("A".data ++ (old_block ++ "B".data)) =
      Except.ok ("A".data ++ (new_markup ++ "B".data)) :=
  C7_fragment_replace _ _ (by decide) (by decide)

/-- C9.  The style step never fails: it either returns the document
unchanged or inserts the CSS block; in particular a document without the
two-space indented anchor passes through unchanged. -/
theorem C9_style_total : ∀ t : List Char,
    (cssStep t = t ∨ containsSub css_insert (cssStep t) = true) ∧
    (containsSub styleAnchor t = false → cssStep t = t) := by
  intro t
  refine ⟨?_, fun ha => cssStep_of_no_anchor ha⟩
  by_cases hm : containsSub cssMarker t = true
  · exact Or.inl (cssStep_of_marker hm)
  · by_cases ha : containsSub styleAnchor t = true
    · refine Or.inr ?_
      rw [cssStep_of_insert (Bool.eq_false_iff.mpr hm)]
      exact contains_repl_replaceAll styleAnchor_ne
        css_insert_in_cssReplacement t ha
    · exact Or.inl (cssStep_of_no_anchor (Bool.eq_false_iff.mpr ha))

/-- Witness for C9 on the single-character document `x`. -/
theorem C9_witness : cssStep "x".data = "x".data :=
  (C9_style_total "x".data).2 (by decide)

/-- C10.  Whole-document guard scope: any document containing the marker
substring anywhere is left unchanged by the style step. -/
theorem C10_guard_scope : ∀ t : List Char,
    containsSub cssMarker t = true → cssStep t = t := by
  intro t hm
  exact cssStep_of_marker hm

/-- Witness for C10: a document whose marker occurrence is unrelated
markup; the anchor is present and the CSS block absent, yet nothing is
inserted. -/
theorem C10_witness :
    containsSub cssMarker
      "<p class=\"combat-controls\"></p>  </style>".data = true ∧
    cssStep "<p class=\"combat-controls\"></p>  </style>".data =
      "<p class=\"combat-controls\"></p>  </style>".data ∧
    containsSub css_insert
      "<p class=\"combat-controls\"></p>  </style>".data = false ∧
    containsSub styleAnchor
      "<p class=\"combat-controls\"></p>  </style>".data = true :=
  ⟨by decide, C10_guard_scope _ (by decide), by decide, by decide⟩

end DozedEnt
